import Mathlib

/-!
Verification development for the rf-destaques repository (fixed-income
"Destaques" dashboard scripts).  The repository contains four near-duplicate
Streamlit scripts sharing one pipeline: read spreadsheet rows, detect columns
by fuzzy name matching, normalize/parse fields, classify, rank (Top-N per
(indexer, horizon) bucket) and render WhatsApp-ready messages.

Shallow embedding conventions:
* Python strings are `List Char` (`Str`); Python floats are `ℚ` (the rates
  and thresholds appearing in the scripts are exact decimals, so no claim
  below depends on binary floating-point rounding anomalies; NaN is not
  modelled -- missing values are `Option.none` / `Cell.cnone`).
* A spreadsheet cell is a `Cell`: `None`, a string, a number, or a date.
* Fallible parsers return `Option`.
* `pandas.DataFrame.sort_values(kind := default "quicksort")` is modelled by
  a port of numpy's introspective quicksort for `argsort` (`aquicksort`
  in numpy's npysort sources: median-of-3 quicksort, insertion sort for
  segments of at most 16 elements, heapsort fallback on deep recursion),
  composed exactly as pandas `nargsort` does for descending order
  (reverse, argsort ascending, reverse).  The pandas documentation states
  that this default sort is not stable.
* Functions keep the Python source names.  Where the four script variants
  differ, the model of `rf_destaques.py` (= `rf_destaques_2.py` =
  `rf_destaques3.py` on the functions used here) carries the plain name and
  the diverging `rf_destques.py` variant carries the suffix `_destques`.
  `parse_rate_value` follows `rf_destaques3.py`, whose body is identical to
  `rf_destaques.py` except that the final conversion is guarded by
  `try/except` returning `None`.
-/

abbrev Str := List Char

/-- Case table for Python `str.upper`/`str.lower` restricted to the ASCII
letters and the accented Latin letters occurring in this repository's data
and vocabularies (pairs are (lowercase, uppercase)). -/
def caseTable : List (Char × Char) :=
  [('a', 'A'), ('b', 'B'), ('c', 'C'), ('d', 'D'), ('e', 'E'), ('f', 'F'),
   ('g', 'G'), ('h', 'H'), ('i', 'I'), ('j', 'J'), ('k', 'K'), ('l', 'L'),
   ('m', 'M'), ('n', 'N'), ('o', 'O'), ('p', 'P'), ('q', 'Q'), ('r', 'R'),
   ('s', 'S'), ('t', 'T'), ('u', 'U'), ('v', 'V'), ('w', 'W'), ('x', 'X'),
   ('y', 'Y'), ('z', 'Z'),
   ('á', 'Á'), ('à', 'À'), ('â', 'Â'), ('ã', 'Ã'),
   ('é', 'É'), ('ê', 'Ê'), ('í', 'Í'),
   ('ó', 'Ó'), ('ô', 'Ô'), ('õ', 'Õ'),
   ('ú', 'Ú'), ('ü', 'Ü'), ('ç', 'Ç')]

def pyUpperChar (c : Char) : Char :=
  ((caseTable.find? (fun p => p.1 == c)).map Prod.snd).getD c

def pyLowerChar (c : Char) : Char :=
  ((caseTable.find? (fun p => p.2 == c)).map Prod.fst).getD c

/-- Python `str.upper()`. -/
def pyUpper (s : Str) : Str := s.map pyUpperChar

/-- Python `str.lower()`. -/
def pyLower (s : Str) : Str := s.map pyLowerChar

def isSpaceChar (c : Char) : Bool :=
  c == ' ' || c == '\t' || c == '\n' || c == '\r' || c == '\x0b' || c == '\x0c'

/-- Python `str.strip()` (no argument: strip whitespace at both ends). -/
def pyStrip (s : Str) : Str :=
  ((s.dropWhile isSpaceChar).reverse.dropWhile isSpaceChar).reverse

/-- Python `needle in hay` for strings (substring containment). -/
def containsB (hay needle : Str) : Bool :=
  hay.tails.any (fun t => needle.isPrefixOf t)

/-- Python `str.replace(c, "")` for a single-character pattern. -/
def removeChar (c : Char) (s : Str) : Str := s.filter (fun x => !(x == c))

/-- Python `str.replace(a, b)` for single characters a, b. -/
def mapChar (a b : Char) (s : Str) : Str := s.map (fun x => if x == a then b else x)

def replaceSubAux (pat rep : Str) : Nat → Str → Str
  | _, [] => []
  | 0, s => s
  | fuel + 1, c :: rest =>
    if pat != [] && pat.isPrefixOf (c :: rest) then
      rep ++ replaceSubAux pat rep fuel ((c :: rest).drop pat.length)
    else
      c :: replaceSubAux pat rep fuel rest

/-- Python `str.replace(pat, rep)` (left-to-right, non-overlapping) for a
nonempty pattern. -/
def pyReplace (s pat rep : Str) : Str := replaceSubAux pat rep s.length s

def natDigits (n : Nat) : Str := Nat.toDigits 10 n

def digitsVal (ds : Str) : Nat := ds.foldl (fun a c => a * 10 + (c.toNat - 48)) 0

def pad2 (n : Nat) : Str := if n < 10 then '0' :: natDigits n else natDigits n

def pad4 (n : Nat) : Str :=
  if n < 10 then '0' :: '0' :: '0' :: natDigits n
  else if n < 100 then '0' :: '0' :: natDigits n
  else if n < 1000 then '0' :: natDigits n
  else natDigits n

def group3Rev : Str → Str
  | a :: b :: c :: d :: rest => a :: b :: c :: '.' :: group3Rev (d :: rest)
  | s => s

/-- Group a digit string in threes from the right with `.` separators
(the Brazilian rendering the scripts obtain by reformatting Python's
comma-grouped output). -/
def groupThousands (ds : Str) : Str := (group3Rev ds.reverse).reverse

/-- Floor of a rational as an integer (`Int.fdiv` is floor division, so
this is the mathematical floor, kept kernel-computable). -/
def ratFloor (q : ℚ) : Int := Int.fdiv q.num (q.den : Int)

/-- Round half to even (Python `round` / `format` rounding on the exact
rational value). -/
def roundHalfEven (q : ℚ) : Int :=
  let f : Int := ratFloor q
  let r : ℚ := q - (f : ℚ)
  if r < 1 / 2 then f
  else if 1 / 2 < r then f + 1
  else if f % 2 = 0 then f else f + 1

/-- Render a rational with exactly two decimals, `,` as decimal separator
and (when `grouped`) `.` as thousands separator: the net effect of the
scripts' `f-string` formatting followed by their separator-swap. -/
def fmt2BR (grouped : Bool) (q : ℚ) : Str :=
  let n : Int := roundHalfEven (q * 100)
  let sign : Str := if n < 0 then ['-'] else []
  let a : Nat := n.natAbs
  let ip : Str := natDigits (a / 100)
  let f : Nat := a % 100
  let fp : Str := [Char.ofNat (48 + f / 10), Char.ofNat (48 + f % 10)]
  sign ++ (if grouped then groupThousands ip else ip) ++ [','] ++ fp

/-- A spreadsheet cell value: empty, text, number, or date (year, month, day).
NaN floats are not modelled; missing values are `cnone`. -/
inductive Cell where
  | cnone : Cell
  | cstr : Str → Cell
  | cnum : ℚ → Cell
  | cdate : Nat → Nat → Nat → Cell
deriving DecidableEq

/-- Python `pd.isna` on a scalar cell (`None`/NaT; NaN not modelled). -/
def pyIsNa : Cell → Bool
  | .cnone => true
  | _ => false

def fracDigits : Nat → ℚ → Str
  | 0, _ => []
  | fuel + 1, q =>
    if q = 0 then []
    else
      let q10 : ℚ := q * 10
      let d : Int := ratFloor q10
      Char.ofNat (48 + d.toNat % 10) :: fracDigits fuel (q10 - (d : ℚ))

/-- Python `str(x)` for a float, restricted to values with a short
terminating decimal expansion (all numeric cells evaluated in this
development are such values; Python prints them the same way). -/
def pyStrOfFloat (q : ℚ) : Str :=
  let sign : Str := if q < 0 then ['-'] else []
  let a : ℚ := |q|
  let ip : Nat := (ratFloor a).toNat
  let fd : Str := fracDigits 17 (a - (ratFloor a : ℚ))
  sign ++ natDigits ip ++ ['.'] ++ (if fd = [] then ['0'] else fd)

/-- Python `str(x)` on a cell (`str(None) = "None"`; dates print like
pandas Timestamps). -/
def pyStrOfCell : Cell → Str
  | .cnone => "None".data
  | .cstr s => s
  | .cnum q => pyStrOfFloat q
  | .cdate y m d => pad4 y ++ "-".data ++ pad2 m ++ "-".data ++ pad2 d ++ " 00:00:00".data

def isDigitB (c : Char) : Bool := c.isDigit

def matchDigits1 (s : Str) : Option Str :=
  let ds := s.takeWhile isDigitB
  if ds = [] then none
  else
    match s.drop ds.length with
    | '.' :: r2 =>
      let fs := r2.takeWhile isDigitB
      if fs = [] then some ds else some (ds ++ '.' :: fs)
    | _ => some ds

def matchNum1At : Str → Option Str
  | '-' :: rest => (matchDigits1 rest).map (fun t => '-' :: t)
  | s => matchDigits1 s

/-- Leftmost match of the regular expression `(-?\d+(\.\d+)?)` (as in
`to_numeric_series`; `\d` is taken as the ASCII digits occurring in the
data). -/
def extractNum1 : Str → Option Str
  | [] => none
  | c :: rest =>
    match matchNum1At (c :: rest) with
    | some t => some t
    | none => extractNum1 rest

def isNumTailChar (c : Char) : Bool := isDigitB c || c == '.' || c == ','

def matchNum2At : Str → Option Str
  | '-' :: c :: rest =>
    if isDigitB c then some ('-' :: c :: rest.takeWhile isNumTailChar) else none
  | c :: rest => if isDigitB c then some (c :: rest.takeWhile isNumTailChar) else none
  | [] => none

/-- Leftmost match of the regular expression `(-?\d[\d\.,]*)` (as in
`parse_rate_value`). -/
def extractNum2 : Str → Option Str
  | [] => none
  | c :: rest =>
    match matchNum2At (c :: rest) with
    | some t => some t
    | none => extractNum2 rest

/-- Python `float(s)` restricted to the plain decimal forms produced by the
scripts' normalizations: optional sign, digits, optional `.` and digits; no
exponent, no extra characters (on anything else `float` raises, modelled as
`none`). -/
def pyFloat (s : Str) : Option ℚ :=
  let sgnt : ℚ × Str :=
    match s with
    | '-' :: r => (-1, r)
    | '+' :: r => (1, r)
    | _ => (1, s)
  let t := sgnt.2
  let ip := t.takeWhile isDigitB
  match t.drop ip.length with
  | [] => if ip = [] then none else some (sgnt.1 * (digitsVal ip : ℚ))
  | '.' :: r2 =>
    let fp := r2.takeWhile isDigitB
    if r2.drop fp.length ≠ [] then none
    else if ip = [] ∧ fp = [] then none
    else some (sgnt.1 * ((digitsVal ip : ℚ) + (digitsVal fp : ℚ) / (10 : ℚ) ^ fp.length))
  | _ => none

/-- Cell-level model of `to_numeric_series` (all four scripts share it):
numeric cells pass through; otherwise stringify, strip, delete every `.`,
turn `,` into `.`, extract the first `-?\d+(\.\d+)?` numeral and coerce
(`errors="coerce"`: failure gives `none`). -/
def to_numeric_cell : Cell → Option ℚ
  | .cnone => none
  | .cnum q => some q
  | c =>
    let s := mapChar ',' '.' (removeChar '.' (pyStrip (pyStrOfCell c)))
    match extractNum1 s with
    | none => none
    | some t => pyFloat t

/-- Model of `parse_rate_value` from `rf_destaques.py` / `rf_destaques_2.py`
/ `rf_destaques3.py` (identical bodies; the final conversion guard of
`rf_destaques3.py` is kept, `rf_destaques.py` would raise where this
returns `none`): native numbers unchanged; otherwise uppercase, delete `%`
and spaces, extract the first `-?\d[\d\.,]*` token, then delete `.` only
when `,` is also present in the token, turn `,` into `.`, and convert. -/
def parse_rate_value (x : Cell) : Option ℚ :=
  match x with
  | .cnone => none
  | .cnum q => some q
  | c =>
    let s := removeChar ' ' (removeChar '%' (pyUpper (pyStrOfCell c)))
    match extractNum2 s with
    | none => none
    | some num =>
      let num2 :=
        if num.contains '.' && num.contains ',' then mapChar ',' '.' (removeChar '.' num)
        else if num.contains ',' then mapChar ',' '.' num
        else num
      pyFloat num2

/-- Model of `parse_rate_value` from `rf_destques.py`: no native-number
shortcut (numbers are stringified like any cell); strip, uppercase, delete
`%` and the suffix tokens `A.A.` / `AA` / `A A`, delete spaces, delete every
`.`, turn `,` into `.`, extract the first `-?\d+(\.\d+)?` numeral, convert
(guarded). -/
def parse_rate_value_destques (x : Cell) : Option ℚ :=
  match x with
  | .cnone => none
  | c =>
    let s0 := pyUpper (pyStrip (pyStrOfCell c))
    let s1 := removeChar '%' s0
    let s2 := pyReplace s1 "A.A.".data ([] : Str)
    let s3 := pyReplace s2 "AA".data ([] : Str)
    let s4 := pyReplace s3 "A A".data ([] : Str)
    let s5 := removeChar ' ' s4
    let s6 := mapChar ',' '.' (removeChar '.' s5)
    match extractNum1 s6 with
    | none => none
    | some num => pyFloat num

/-- Modelled from the spec: the section 4.1 reference algorithm that claim
C2 states for `parseRate`/`parseNumber` (the missing piece being a single
canonical implementation collapsing the variants): native numbers pass
through unchanged; otherwise stringify, strip whitespace and percent signs,
delete every `.` first, then turn `,` into `.`, extract the first
signed-or-unsigned decimal numeral, `none` when no numeral is found or
conversion fails. -/
def parse_rate_spec (x : Cell) : Option ℚ :=
  match x with
  | .cnone => none
  | .cnum q => some q
  | c =>
    let s := (pyStrOfCell c).filter (fun ch => !(isSpaceChar ch) && !(ch == '%'))
    let s2 := mapChar ',' '.' (removeChar '.' s)
    match extractNum1 s2 with
    | none => none
    | some t => pyFloat t

inductive Indexer where
  | posCDI : Indexer
  | pre : Indexer
  | ipca : Indexer
deriving DecidableEq

inductive Horizon where
  | curto : Horizon
  | medio : Horizon
  | longo : Horizon
deriving DecidableEq

/-- Model of `classify_indexer` from `rf_destaques.py` (identical to
`classify_indexer_bancario` of `rf_destaques_2.py` / `rf_destaques3.py`):
uppercase, then test substring membership with IPCA first. The enum values
stand for the label strings "IPCA", "Pós (CDI)", "Pré". -/
def classify_indexer (raw : Cell) : Option Indexer :=
  match raw with
  | .cnone => none
  | c =>
    let t := pyUpper (pyStrOfCell c)
    if containsB t "IPCA".data then some .ipca
    else if containsB t "CDI".data || containsB t "PÓS".data || containsB t "POS".data then
      some .posCDI
    else if containsB t "PRÉ".data || containsB t "PRE".data || containsB t "FIXA".data then
      some .pre
    else none

/-- Model of `classify_indexer` from `rf_destques.py`: strip + uppercase,
then test the Pós (CDI) vocabulary (including the bare token "DI") BEFORE
IPCA. -/
def classify_indexer_destques (raw : Cell) : Option Indexer :=
  match raw with
  | .cnone => none
  | c =>
    let t := pyUpper (pyStrip (pyStrOfCell c))
    if containsB t "CDI".data || containsB t "PÓS".data || containsB t "POS".data
        || containsB t "DI".data then some .posCDI
    else if containsB t "IPCA".data then some .ipca
    else if containsB t "PRÉ".data || containsB t "PRE".data || containsB t "FIXA".data then
      some .pre
    else none

/-- Model of `categorize_horizon` (shared by all variants; `rf_destques.py`
writes the middle guard as `360 < days <= 1080`, which is reached only when
`days > 360`, so the function is the same). -/
def categorize_horizon (days : Option ℚ) : Option Horizon :=
  match days with
  | none => none
  | some d => if d ≤ 360 then some .curto else if d ≤ 1080 then some .medio else some .longo

def rating_map : List (Str × Nat) :=
  [("AAA".data, 1), ("AA+".data, 2), ("AA".data, 3), ("AA-".data, 4),
   ("A+".data, 5), ("A".data, 6), ("A-".data, 7),
   ("BBB+".data, 8), ("BBB".data, 9), ("BBB-".data, 10),
   ("BB+".data, 11), ("BB".data, 12), ("BB-".data, 13),
   ("B+".data, 14), ("B".data, 15), ("B-".data, 16),
   ("CCC".data, 17), ("CC".data, 18), ("C".data, 19), ("D".data, 20)]

/-- Model of `rating_score` (`rf_destaques.py`) = `rating_to_score`
(`rf_destques.py`): strip, uppercase, delete spaces, exact lookup in the
fixed ordinal table, unknown tokens give `none`. -/
def rating_score (x : Cell) : Option Nat :=
  match x with
  | .cnone => none
  | c =>
    let t := removeChar ' ' (pyUpper (pyStrip (pyStrOfCell c)))
    (rating_map.find? (fun p => p.1 == t)).map Prod.snd

/-- Model of `format_rate_for_display` (identical in `rf_destaques.py`,
`rf_destaques_2.py`, `rf_destaques3.py`): the `indexador` argument is the
classified label (or none).  Pós (CDI): values at most 2 are fractions and
are multiplied by 100, rendering groups thousands with `.`; any other
indexer (Pré/IPCA/unclassified): values at most 1.5 are multiplied by 100,
no thousands grouping; always 2 decimals, `,` decimal separator, trailing
`%`. -/
def format_rate_for_display (rate : Option ℚ) (idx : Option Indexer) : Str :=
  match rate with
  | none => []
  | some v =>
    if idx = some .posCDI then
      fmt2BR true (if v ≤ 2 then v * 100 else v) ++ "%".data
    else
      fmt2BR false (if v ≤ 3 / 2 then v * 100 else v) ++ "%".data

/-- Model of `format_currency_brl`: none gives the empty string, otherwise
round half-even to whole units, group thousands with `.`, prefix `R$ `. -/
def format_currency_brl (v : Option ℚ) : Str :=
  match v with
  | none => []
  | some q =>
    let n : Int := roundHalfEven q
    "R$ ".data ++ (if n < 0 then "-".data else []) ++ groupThousands (natDigits n.natAbs)

/-- Model of `format_date_br`: `DD/MM/YYYY`, empty string on none. -/
def format_date_br (d : Option (Nat × Nat × Nat)) : Str :=
  match d with
  | none => []
  | some ymd => pad2 ymd.2.2 ++ "/".data ++ pad2 ymd.2.1 ++ "/".data ++ pad4 ymd.1

/-- Day-first parse of a `DD/MM/YYYY` string (the maturity format in these
sheets); anything else coerces to `none`.  Partial model of
`pd.to_datetime(errors="coerce", dayfirst=True)` on strings. -/
def parseDayFirst (s : Str) : Option (Nat × Nat × Nat) :=
  match (pyStrip s).splitOn '/' with
  | [ds, ms, ys] =>
    if ds ≠ [] ∧ ms ≠ [] ∧ ys ≠ [] ∧ ds.all isDigitB ∧ ms.all isDigitB ∧ ys.all isDigitB then
      let d := digitsVal ds
      let m := digitsVal ms
      let y := digitsVal ys
      if 1 ≤ d ∧ d ≤ 31 ∧ 1 ≤ m ∧ m ≤ 12 then some (y, m, d) else none
    else none
  | _ => none

/-- Cell-level model of `to_date_series`: native dates pass through, strings
parse day-first, everything else coerces to `none`. -/
def to_date_cell : Cell → Option (Nat × Nat × Nat)
  | .cdate y m d => some (y, m, d)
  | .cstr s => parseDayFirst s
  | _ => none

/-- Days since the civil epoch 1970-01-01 (standard civil-calendar
conversion); used to model `(venc_dt - pd.Timestamp(date.today())).dt.days`. -/
def daysFromCivil (y : Int) (m d : Nat) : Int :=
  let yy : Int := if m ≤ 2 then y - 1 else y
  let era : Int := (if 0 ≤ yy then yy else yy - 399) / 400
  let yoe : Nat := (yy - era * 400).toNat
  let mp : Nat := if 2 < m then m - 3 else m + 9
  let doy : Nat := (153 * mp + 2) / 5 + d - 1
  let doe : Nat := yoe * 365 + yoe / 4 - yoe / 100 + doy
  era * 146097 + (doe : Int) - 719468

/-- The canonical record each script builds per row (the added dataframe
columns). -/
structure NormalizedRecord where
  emissor : Cell
  produto : Cell
  indexador_raw : Cell
  indexador_pad : Option Indexer
  prazo_dias : Option ℚ
  horizonte : Option Horizon
  taxa_num : Option ℚ
  taxa_fmt : Str
  aplic_min_num : Option ℚ
  aplic_min_fmt : Str
  venc_dt : Option (Nat × Nat × Nat)
  venc_fmt : Str
  rating : Cell
deriving DecidableEq

def defaultRec : NormalizedRecord :=
  { emissor := .cnone, produto := .cnone, indexador_raw := .cnone,
    indexador_pad := none, prazo_dias := none, horizonte := none,
    taxa_num := none, taxa_fmt := [], aplic_min_num := none, aplic_min_fmt := [],
    venc_dt := none, venc_fmt := [], rating := .cnone }

instance : Inhabited NormalizedRecord := ⟨defaultRec⟩

/-- One raw sheet row, after column resolution (the cells of the resolved
columns). -/
structure RawRow where
  emissor : Cell
  produto : Cell
  indexador : Cell
  taxa : Cell
  prazo : Cell
  venc : Cell
  aplic_min : Cell
  rating : Cell
deriving DecidableEq

/-- Model of the per-row transform block of `rf_destaques.py` (lines
208-225): classify the indexer, compute `prazo_dias` from the `Prazo`
column when resolved, else from `Vencimento - today`, bucket the horizon,
parse and format the rate, the minimum investment and the maturity. -/
def normalizeRow (hasPrazo : Bool) (today : Nat × Nat × Nat) (r : RawRow) : NormalizedRecord :=
  let ip := classify_indexer r.indexador
  let pdias : Option ℚ :=
    if hasPrazo then to_numeric_cell r.prazo
    else (to_date_cell r.venc).map (fun v =>
      ((daysFromCivil (v.1 : Int) v.2.1 v.2.2 -
        daysFromCivil (today.1 : Int) today.2.1 today.2.2 : Int) : ℚ))
  let tn := parse_rate_value r.taxa
  let amin := to_numeric_cell r.aplic_min
  let vdt := to_date_cell r.venc
  { emissor := r.emissor, produto := r.produto, indexador_raw := r.indexador,
    indexador_pad := ip, prazo_dias := pdias,
    horizonte := categorize_horizon pdias,
    taxa_num := tn, taxa_fmt := format_rate_for_display tn ip,
    aplic_min_num := amin, aplic_min_fmt := format_currency_brl amin,
    venc_dt := vdt, venc_fmt := format_date_br vdt,
    rating := r.rating }

/-- The survivor predicate of `rf_destaques.py` line 228 / `rf_destques.py`
line 249: keep only rows whose three required keys are non-null. -/
def survivorPred (r : NormalizedRecord) : Bool :=
  r.indexador_pad.isSome && r.horizonte.isSome && r.taxa_num.isSome

/-- Rating-floor row predicate (`_rating_score` notna and at most the
threshold score). -/
def ratingPred (minScore : Nat) (r : NormalizedRecord) : Bool :=
  (rating_score r.rating).isSome && ((rating_score r.rating).getD 0 ≤ minScore)

/-- Minimum-investment row predicate (`aplic_min_num` notna and at most the
cap). -/
def minAppPred (cap : ℚ) (r : NormalizedRecord) : Bool :=
  r.aplic_min_num.isSome && ((r.aplic_min_num).getD 0 ≤ cap)

/-- Bucket-membership predicate: the `(indexador_pad, horizonte)` cell. -/
def bucketPred (idx : Indexer) (hz : Horizon) (r : NormalizedRecord) : Bool :=
  r.indexador_pad == some idx && r.horizonte == some hz

/-- Model of the rating-filter block of `rf_destaques.py` lines 231-250
(assuming the rating column resolved): when the threshold token maps to a
score, filter; when it does not, the dataframe is left unchanged and no
warning is emitted.  The Bool result records whether a warning was
surfaced (this variant never warns). -/
def apply_rating_filter (useFilter : Bool) (ratingMin : Str)
    (l : List NormalizedRecord) : List NormalizedRecord × Bool :=
  if useFilter then
    match rating_score (.cstr ratingMin) with
    | some m => (l.filter (ratingPred m), false)
    | none => (l, false)
  else (l, false)

/-- Model of the rating-filter block of `rf_destques.py` lines 214-241:
rows with null rating are dropped up front (`df[df[col_rating].notna()]`),
then an unknown threshold token skips the score filter and surfaces a
warning (Bool result true). -/
def apply_rating_filter_destques (useFilter : Bool) (ratingMin : Str)
    (l : List NormalizedRecord) : List NormalizedRecord × Bool :=
  if useFilter then
    let l1 := l.filter (fun r => !(pyIsNa r.rating))
    match rating_score (.cstr ratingMin) with
    | none => (l1, true)
    | some m => (l1.filter (ratingPred m), false)
  else (l, false)

/-- Model of the minimum-investment filter block of `rf_destaques.py` lines
253-254. -/
def apply_min_app_filter (useFilter : Bool) (cap : ℚ)
    (l : List NormalizedRecord) : List NormalizedRecord :=
  if useFilter && decide (0 < cap) then l.filter (minAppPred cap) else l

def vAt (v : List ℚ) (i : Nat) : ℚ := v.getD i 0

def getI (t : List Nat) (i : Nat) : Nat := t.getD i 0

def swapI (t : List Nat) (i j : Nat) : List Nat :=
  let a := getI t i
  let b := getI t j
  (t.set i b).set j a

/-- The left scan of numpy's argsort quicksort partition:
`do ++pi; while (v[tosort[pi]] < pivot)`. -/
def scanL (v : List ℚ) (vp : ℚ) (t : List Nat) : Nat → Nat → Nat
  | 0, pi => pi + 1
  | fuel + 1, pi =>
    let pi2 := pi + 1
    if vAt v (getI t pi2) < vp then scanL v vp t fuel pi2 else pi2

/-- The right scan: `do --pj; while (pivot < v[tosort[pj]])`. -/
def scanR (v : List ℚ) (vp : ℚ) (t : List Nat) : Nat → Nat → Nat
  | 0, pj => pj - 1
  | fuel + 1, pj =>
    let pj2 := pj - 1
    if vp < vAt v (getI t pj2) then scanR v vp t fuel pj2 else pj2

/-- The swap loop of the partition step. -/
def partLoop (v : List ℚ) (vp : ℚ) : Nat → List Nat → Nat → Nat → List Nat × Nat
  | 0, t, pi, _ => (t, pi)
  | fuel + 1, t, pi, pj =>
    let pi2 := scanL v vp t (t.length + 2) pi
    let pj2 := scanR v vp t (t.length + 2) pj
    if pj2 ≤ pi2 then (t, pi2)
    else partLoop v vp fuel (swapI t pi2 pj2) pi2 pj2

def med3Swaps (v : List ℚ) (t : List Nat) (pl pm pr : Nat) : List Nat :=
  let t1 := if vAt v (getI t pm) < vAt v (getI t pl) then swapI t pm pl else t
  let t2 := if vAt v (getI t1 pr) < vAt v (getI t1 pm) then swapI t1 pr pm else t1
  if vAt v (getI t2 pm) < vAt v (getI t2 pl) then swapI t2 pm pl else t2

/-- One median-of-3 Hoare partition of the index segment `[pl, pr]`, exactly
as numpy's `aquicksort` performs it (pivot parked at `pr - 1`); returns the
permuted index list and the final pivot position. -/
def partitionSeg (v : List ℚ) (t : List Nat) (pl pr : Nat) : List Nat × Nat :=
  let pm := pl + (pr - pl) / 2
  let t1 := med3Swaps v t pl pm pr
  let vp := vAt v (getI t1 pm)
  let t2 := swapI t1 pm (pr - 1)
  let tp := partLoop v vp (t2.length + 2) t2 pl (pr - 1)
  (swapI tp.1 tp.2 (pr - 1), tp.2)

/-- The shift loop of the argsort insertion sort. -/
def insShift (v : List ℚ) (vp : ℚ) (pl : Nat) : Nat → List Nat → Nat → List Nat × Nat
  | 0, t, pj => (t, pj)
  | fuel + 1, t, pj =>
    if pl < pj ∧ vp < vAt v (getI t (pj - 1)) then
      insShift v vp pl fuel (t.set pj (getI t (pj - 1))) (pj - 1)
    else (t, pj)

def insLoop (v : List ℚ) (pl pr : Nat) : Nat → List Nat → Nat → List Nat
  | 0, t, _ => t
  | fuel + 1, t, pi =>
    if pr < pi then t
    else
      let vi := getI t pi
      let tp := insShift v (vAt v vi) pl (t.length + 2) t pi
      insLoop v pl pr fuel (tp.1.set tp.2 vi) (pi + 1)

/-- Stable argsort insertion sort of the segment `[pl, pr]` (numpy runs it
on every segment of at most 16 elements). -/
def insSortSeg (v : List ℚ) (t : List Nat) (pl pr : Nat) : List Nat :=
  insLoop v pl pr (t.length + 2) t (pl + 1)

/-- The sift step of numpy's argsort heapsort (1-based heap on the segment
starting at `pl`). -/
def heapSift (v : List ℚ) (pl tmp n : Nat) : Nat → List Nat → Nat → Nat → List Nat
  | 0, t, i, _ => t.set (pl + i - 1) tmp
  | fuel + 1, t, i, j =>
    if j ≤ n then
      let j2 := if j < n ∧ vAt v (getI t (pl + j - 1)) < vAt v (getI t (pl + j)) then j + 1 else j
      if vAt v tmp < vAt v (getI t (pl + j2 - 1)) then
        heapSift v pl tmp n fuel (t.set (pl + i - 1) (getI t (pl + j2 - 1))) j2 (j2 * 2)
      else t.set (pl + i - 1) tmp
    else t.set (pl + i - 1) tmp

def heapBuild (v : List ℚ) (pl n : Nat) : Nat → List Nat → Nat → List Nat
  | 0, t, _ => t
  | fuel + 1, t, l =>
    if 1 ≤ l then
      let tmp := getI t (pl + l - 1)
      heapBuild v pl n fuel (heapSift v pl tmp n (t.length + 2) t l (l * 2)) (l - 1)
    else t

def heapExtract (v : List ℚ) (pl : Nat) : Nat → List Nat → Nat → List Nat
  | 0, t, _ => t
  | fuel + 1, t, n =>
    if 1 < n then
      let tmp := getI t (pl + n - 1)
      let t1 := t.set (pl + n - 1) (getI t pl)
      heapExtract v pl fuel (heapSift v pl tmp (n - 1) (t1.length + 2) t1 1 2) (n - 1)
    else t

/-- numpy's argsort heapsort on the `n`-element segment starting at `pl`
(the introsort depth-limit fallback). -/
def aheapsortSeg (v : List ℚ) (t : List Nat) (pl n : Nat) : List Nat :=
  heapExtract v pl (n + 2) (heapBuild v pl n (n + 2) t (n / 2)) n

/-- numpy `SMALL_QUICKSORT` threshold. -/
def SMALL_QS : Nat := 15

/-- The outer loop of numpy's `aquicksort`: explicit segment stack, shared
depth budget, partition while the segment exceeds `SMALL_QS`, insertion
sort below, heapsort when the depth budget is exhausted. -/
def introLoop (v : List ℚ) : Nat → List Nat → Nat → Nat → List (Nat × Nat) → Int → List Nat
  | 0, t, _, _, _, _ => t
  | fuel + 1, t, pl, pr, stack, depth =>
    if SMALL_QS < pr - pl then
      if depth < 0 then
        let t1 := aheapsortSeg v t pl (pr - pl + 1)
        match stack with
        | [] => t1
        | (pl2, pr2) :: rest => introLoop v fuel t1 pl2 pr2 rest (depth - 1)
      else
        let tp := partitionSeg v t pl pr
        let pi := tp.2
        if pi - pl < pr - pi then
          introLoop v fuel tp.1 pl (pi - 1) ((pi + 1, pr) :: stack) (depth - 1)
        else
          introLoop v fuel tp.1 (pi + 1) pr ((pl, pi - 1) :: stack) (depth - 1)
    else
      let t1 := insSortSeg v t pl pr
      match stack with
      | [] => t1
      | (pl2, pr2) :: rest => introLoop v fuel t1 pl2 pr2 rest depth

/-- numpy `np.argsort(v, kind="quicksort")` (introspective quicksort over
an index array, comparing values; no NaNs among the inputs this model is
applied to). -/
def aquicksort (v : List ℚ) : List Nat :=
  let n := v.length
  if 1 < n then introLoop v (4 * n + 64) (List.range n) 0 (n - 1) [] (2 * Nat.log2 n)
  else List.range n

/-- pandas `nargsort(values, kind="quicksort", ascending=False)` with no
missing values: reverse the values and the index positions, argsort
ascending, then reverse the resulting indexer -- the exact composition
pandas uses for a descending `sort_values`. -/
def nargsortDesc (vals : List ℚ) : List Nat :=
  let n := vals.length
  let p := aquicksort vals.reverse
  (p.map (fun k => n - 1 - k)).reverse

def taxaKey (r : NormalizedRecord) : ℚ := (r.taxa_num).getD 0

/-- Model of `top_n_block` (`rf_destaques.py` lines 115-117): restrict to
the bucket, `sort_values("taxa_num", ascending=False)` with the pandas
default (unstable) quicksort, keep the first `n` rows.  (`make_block` of
`rf_destques.py` differs only in `na_position`, irrelevant here since the
callers pass survivor-filtered frames whose `taxa_num` is never null.) -/
def top_n_block (l : List NormalizedRecord) (idx : Indexer) (hz : Horizon) (n : Nat) :
    List NormalizedRecord :=
  let sub := l.filter (bucketPred idx hz)
  ((nargsortDesc (sub.map taxaKey)).map (fun i => sub.getD i defaultRec)).take n

/-- Stable descending insertion: a record is placed before the first
element whose rate does not exceed it, so earlier records precede equal
later ones. -/
def insertDesc (r : NormalizedRecord) : List NormalizedRecord → List NormalizedRecord
  | [] => [r]
  | x :: xs => if taxaKey x ≤ taxaKey r then r :: x :: xs else x :: insertDesc r xs

/-- Stable descending sort by `rate_value` (insertion sort). -/
def stableSortDesc : List NormalizedRecord → List NormalizedRecord
  | [] => []
  | x :: xs => insertDesc x (stableSortDesc xs)

/-- Modelled from the spec: section 4.4's `topN` -- filter the bucket, sort
by `rate_value` descending with ties in original row order (stable), take
the first `n`. -/
def topN_spec (l : List NormalizedRecord) (idx : Indexer) (hz : Horizon) (n : Nat) :
    List NormalizedRecord :=
  (stableSortDesc (l.filter (bucketPred idx hz))).take n

/-- Python `str(x).strip()` as the message builder applies it to cells. -/
def cellStripped (c : Cell) : Str := pyStrip (pyStrOfCell c)

/-- Model of `format_card` inside `build_whatsapp_message`
(`rf_destaques.py` lines 297-312). -/
def format_card (prefTaxa : Str) (r : NormalizedRecord) : Str :=
  let emissor := cellStripped r.emissor
  let produto := cellStripped r.produto
  let taxa := pyStrip r.taxa_fmt
  let venc := pyStrip r.venc_fmt
  let amin := pyStrip r.aplic_min_fmt
  let titulo := pyStrip (produto ++ " ".data ++ emissor)
  let taxaEx := if taxa ≠ [] then prefTaxa ++ taxa else []
  "🏦*".data ++ titulo ++ "*\n⏰ Vencimento: ".data ++ venc ++
    "\n📈 Taxa: ".data ++ taxaEx ++ "\n💰mínimo: ".data ++ amin ++ "\n".data

/-- Python `"\n".join`. -/
def joinNL : List Str → Str
  | [] => []
  | [x] => x
  | x :: y :: xs => x ++ "\n".data ++ joinNL (y :: xs)

/-- Model of `section` inside `build_whatsapp_message` (`rf_destaques.py`
lines 314-322): all records of one indexer class (no horizon split),
sorted descending by the pandas default sort, first `top_n`. -/
def msg_section (l : List NormalizedRecord) (topn : Nat) (idx : Indexer)
    (title prefTaxa : Str) : Str :=
  let sub := l.filter (fun r => r.indexador_pad == some idx)
  let ranked := ((nargsortDesc (sub.map taxaKey)).map (fun i => sub.getD i defaultRec)).take topn
  if ranked = [] then "📍*".data ++ title ++ "*\n- (sem ativos hoje)\n\n".data
  else "📍*".data ++ title ++ "*\n".data ++ joinNL (ranked.map (format_card prefTaxa)) ++ "\n".data

/-- Model of `build_whatsapp_message` (`rf_destaques.py` lines 294-332);
`today` is the `datetime.now()` date the script stamps into the header
(`%d/%m/%Y`, the same rendering as `format_date_br`). -/
def build_whatsapp_message (l : List NormalizedRecord) (topn : Nat)
    (today : Nat × Nat × Nat) : Str :=
  "*Destaques de ativos Bancários*\n🚨*TAXAS DE HOJE (".data ++
    format_date_br (some today) ++ ")*\n\n".data ++
    msg_section l topn .posCDI "PÓS-FIXADOS".data [] ++
    msg_section l topn .pre "PRÉ-FIXADOS".data [] ++
    msg_section l topn .ipca "IPCA".data "IPCA+ ".data

/-- The normalize-and-filter chain of `rf_destaques.py` (transform lines
208-225, survivor filter line 228, rating filter lines 231-250,
minimum-investment filter lines 253-254), producing the dataframe every
later display/message step consumes. -/
def pipelineRecords (hasPrazo : Bool) (today : Nat × Nat × Nat) (rows : List RawRow)
    (useRating : Bool) (ratingMin : Str) (useMinApp : Bool) (cap : ℚ) :
    List NormalizedRecord :=
  apply_min_app_filter useMinApp cap
    (apply_rating_filter useRating ratingMin
      ((rows.map (normalizeRow hasPrazo today)).filter survivorPred)).1

/-- The full run of `rf_destaques.py` up to the WhatsApp message string. -/
def pipelineMessage (hasPrazo : Bool) (today : Nat × Nat × Nat) (rows : List RawRow)
    (useRating : Bool) (ratingMin : Str) (useMinApp : Bool) (cap : ℚ) (topn : Nat) : Str :=
  build_whatsapp_message
    (pipelineRecords hasPrazo today rows useRating ratingMin useMinApp cap) topn today

/-- The exact-or-substring test `rf_destaques.py`'s `find_col` applies per
candidate and column (`cand_l == c.lower() or cand_l in c.lower()`). -/
def colMatch (cand col : Str) : Bool :=
  pyLower cand == pyLower col || containsB (pyLower col) (pyLower cand)

/-- Model of `find_col` from `rf_destaques.py` / `rf_destaques_2.py` /
`rf_destaques3.py` (lines 25-31): for each candidate alias in priority
order, a single pass over the columns returns the first column that
matches exactly OR by substring (case-insensitively). -/
def find_col (cols : List Str) (cands : List Str) : Option Str :=
  match cands with
  | [] => none
  | cand :: rest =>
    match cols.find? (colMatch cand) with
    | some c => some c
    | none => find_col cols rest

/-- Model of `find_col` from `rf_destques.py` (lines 22-33): for each
candidate alias in priority order, first a pass looking for an exact
case-insensitive match, then a pass looking for a substring match. -/
def find_col_destques (cols : List Str) (cands : List Str) : Option Str :=
  match cands with
  | [] => none
  | cand :: rest =>
    match cols.find? (fun c => pyLower cand == pyLower c) with
    | some c => some c
    | none =>
      match cols.find? (fun c => containsB (pyLower c) (pyLower cand)) with
      | some c => some c
      | none => find_col_destques cols rest

/-- A raw sheet row as the Excel reader sees it: a list of cells. -/
abbrev SheetRow := List Cell

/-- The blank-cell test of the reader loop:
`x is None or str(x).strip() == ""`. -/
def cellBlank (c : Cell) : Bool :=
  match c with
  | .cnone => true
  | c => pyStrip (pyStrOfCell c) == []

/-- A row is blank when every cell is blank (`all(...)` in the source). -/
def rowBlank (row : SheetRow) : Bool := row.all cellBlank

/-- The row loop of `read_credito_bancario_fast` (`rf_destaques.py` lines
138-147, identical in `read_sheet_fast` of `rf_destaques_2.py` /
`rf_destaques3.py`): skip blank rows, counting the streak; stop for good
once 20 consecutive blank rows are seen; reset the streak and keep any
non-blank row. -/
def read_rows_aux : Nat → List SheetRow → List SheetRow
  | _, [] => []
  | streak, r :: rs =>
    if rowBlank r then
      if 20 ≤ streak + 1 then [] else read_rows_aux (streak + 1) rs
    else r :: read_rows_aux 0 rs

/-- The data rows `read_credito_bancario_fast` accumulates from the rows
below the header. -/
def read_rows (rows : List SheetRow) : List SheetRow := read_rows_aux 0 rows

/-- No blank streak, counted from an initial streak value, ever reaches 20
in the given row list (the condition under which the reader's early stop
never fires). -/
def okRun : Nat → List SheetRow → Bool
  | _, [] => true
  | s, r :: rs => if rowBlank r then decide (s + 1 < 20) && okRun (s + 1) rs else okRun 0 rs

attribute [local semireducible] Rat.add Rat.mul Rat.sub Rat.inv

theorem filterComm {α : Type} (p q : α → Bool) (l : List α) :
    (l.filter q).filter p = (l.filter p).filter q := by
  rw [List.filter_filter, List.filter_filter]
  have h : (fun a => p a && q a) = fun a => q a && p a := funext fun a => Bool.and_comm _ _
  rw [h]

/-- Claim C5: `format_rate_for_display` applies the fraction-vs-percent
heuristic with per-class thresholds -- Pós (CDI): values at most 2 are
multiplied by 100 and rendered with 2 decimals, comma decimal separator,
`.` thousands separator and trailing `%`; Pré/IPCA: values at most 1.5 are
multiplied by 100 and rendered with 2 decimals, comma decimal separator,
trailing `%`, no grouping; in particular 1.10 with Pós (CDI) renders as
"110,00%" and 0.072 with IPCA renders as "7,20%". -/
theorem format_rate_characterization :
    format_rate_for_display (some (11 / 10)) (some .posCDI) = "110,00%".data ∧
    format_rate_for_display (some (9 / 125)) (some .ipca) = "7,20%".data ∧
    format_rate_for_display (some (12345 / 10)) (some .posCDI) = "1.234,50%".data ∧
    (∀ v : ℚ, v ≤ 2 →
      format_rate_for_display (some v) (some .posCDI) = fmt2BR true (v * 100) ++ "%".data) ∧
    (∀ v : ℚ, ¬v ≤ 2 →
      format_rate_for_display (some v) (some .posCDI) = fmt2BR true v ++ "%".data) ∧
    (∀ (v : ℚ) (idx : Option Indexer), idx = some Indexer.pre ∨ idx = some Indexer.ipca →
      (v ≤ 3 / 2 → format_rate_for_display (some v) idx = fmt2BR false (v * 100) ++ "%".data) ∧
      (¬v ≤ 3 / 2 → format_rate_for_display (some v) idx = fmt2BR false v ++ "%".data)) := by
  refine ⟨by decide, by decide, by decide, ?_, ?_, ?_⟩
  · intro v hv
    simp [format_rate_for_display, hv]
  · intro v hv
    simp [format_rate_for_display, hv]
  · intro v idx hidx
    rcases hidx with h | h <;> subst h <;>
      exact ⟨fun hv => by simp [format_rate_for_display, hv],
        fun hv => by simp [format_rate_for_display, hv]⟩

theorem format_rate_characterization_witness :
    format_rate_for_display (some 1) (some .posCDI) = fmt2BR true 100 ++ "%".data ∧
    format_rate_for_display (some 110) (some .posCDI) = fmt2BR true 110 ++ "%".data ∧
    format_rate_for_display (some (7 / 10)) (some Indexer.ipca) =
      fmt2BR false (7 / 10 * 100) ++ "%".data ∧
    format_rate_for_display (some 13) (some Indexer.pre) = fmt2BR false 13 ++ "%".data := by
  refine ⟨?_, ?_, ?_, ?_⟩
  · have h := format_rate_characterization.2.2.2.1 1 (by norm_num)
    simpa using h
  · have h := format_rate_characterization.2.2.2.2.1 110 (by norm_num)
    simpa using h
  · have h := (format_rate_characterization.2.2.2.2.2 (7 / 10) (some Indexer.ipca)
      (Or.inr rfl)).1 (by norm_num)
    simpa using h
  · have h := (format_rate_characterization.2.2.2.2.2 13 (some Indexer.pre)
      (Or.inl rfl)).2 (by norm_num)
    simpa using h

/-- Claim C6 (counterexample): in `rf_destques.py`, with the rating filter
active and the unrecognized threshold token "ZZZ", a row whose own rating
is null is dropped (the `notna` pre-filter runs before the token check),
even though the warning is surfaced -- so the filter does remove rows under
an unknown token, contradicting the claim. -/
theorem rating_filter_destques_counterexample :
    rating_score (.cstr "ZZZ".data) = none ∧
    apply_rating_filter_destques true "ZZZ".data [defaultRec] = ([], true) ∧
    ([] : List NormalizedRecord) ≠ [defaultRec] := by decide

/-- Claim C6 (amended): when the configured minimum-rating token is not
recognized, the score-threshold filtering is skipped for the whole run in
both variants; `rf_destques.py` surfaces a warning but has already dropped
the rows whose own rating is null (its unconditional `notna` pre-filter),
while `rf_destaques.py` leaves every row untouched but emits no warning. -/
theorem rating_filter_unknown_token :
    ∀ (token : Str) (l : List NormalizedRecord),
      rating_score (.cstr token) = none →
      apply_rating_filter true token l = (l, false) ∧
      apply_rating_filter_destques true token l =
        (l.filter (fun r => !pyIsNa r.rating), true) := by
  intro token l h
  exact ⟨by simp [apply_rating_filter, h], by simp [apply_rating_filter_destques, h]⟩

theorem rating_filter_unknown_token_witness :
    apply_rating_filter true "X+".data [defaultRec] = ([defaultRec], false) ∧
    apply_rating_filter_destques true "X+".data [defaultRec] =
      (([defaultRec] : List NormalizedRecord).filter (fun r => !pyIsNa r.rating), true) :=
  rating_filter_unknown_token "X+".data [defaultRec] (by decide)

/-- Claim C7: the rating-floor filter and the maximum-minimum-investment
filter are monotone (the filtered list is a sublist of the input, never
adding records), they commute with each other and with partitioning into
`(indexer, horizon)` buckets (filter-then-bucket equals
bucket-then-filter-within-bucket), and applying the minimum-investment cap
to a ranked bucket removes records without altering the relative order of
the remainder (the survivors form a sublist of the ranked bucket). -/
theorem filters_monotone_commute :
    ∀ (l : List NormalizedRecord) (m : Nat) (cap : ℚ) (idx : Indexer) (hz : Horizon) (n : Nat),
      (l.filter (ratingPred m)).Sublist l ∧
      (l.filter (minAppPred cap)).Sublist l ∧
      (l.filter (minAppPred cap)).filter (ratingPred m) =
        (l.filter (ratingPred m)).filter (minAppPred cap) ∧
      (l.filter (ratingPred m)).filter (bucketPred idx hz) =
        (l.filter (bucketPred idx hz)).filter (ratingPred m) ∧
      (l.filter (minAppPred cap)).filter (bucketPred idx hz) =
        (l.filter (bucketPred idx hz)).filter (minAppPred cap) ∧
      ((top_n_block l idx hz n).filter (minAppPred cap)).Sublist (top_n_block l idx hz n) := by
  intro l m cap idx hz n
  exact ⟨List.filter_sublist l, List.filter_sublist l, filterComm _ _ l, filterComm _ _ l,
    filterComm _ _ l, List.filter_sublist _⟩

/-- Claim C2 (counterexample): the section 4.1 reference algorithm deletes
every `.` before extracting the numeral, so it reads the string "1.5" as
15; the repository's `parse_rate_value` extracts the numeral first and
keeps a lone `.` as a decimal point, reading "1.5" as 1.5 -- the two
disagree, so `parse_rate_value` does not follow the claimed algorithm. -/
theorem parse_rate_value_dot_counterexample :
    parse_rate_spec (.cstr "1.5".data) = some 15 ∧
    parse_rate_value (.cstr "1.5".data) = some (3 / 2) ∧
    (15 : ℚ) ≠ 3 / 2 := by
  refine ⟨by decide, by decide, by decide⟩

/-- Claim C2 (amended): `parseNumber` (the cell-level `to_numeric_series`)
follows the section 4.1 normalization, and both quoted examples hold; but
`parse_rate_value` extracts the first `-?\d[\d\.,]*` numeral from the
percent-and-space-stripped uppercased string first, and deletes `.` only
when `,` also occurs in the extracted token (a lone `.` stays a decimal
point); native numbers pass through unchanged in `rf_destaques*.py` (and
`none` is returned when no numeral is found or the guarded conversion
fails), while `rf_destques.py` has no native-number shortcut and so
misreads fractional native floats (13.5 becomes 135). -/
theorem parse_rate_value_characterization :
    (∀ q : ℚ, parse_rate_value (.cnum q) = some q) ∧
    parse_rate_value Cell.cnone = none ∧
    (∀ s : Str, extractNum2 (removeChar ' ' (removeChar '%' (pyUpper s))) = none →
      parse_rate_value (.cstr s) = none) ∧
    to_numeric_cell (.cstr "1.234,56".data) = some (1234 + 56 / 100) ∧
    parse_rate_value (.cstr "IPCA + 7,20%".data) = some (7 + 20 / 100) ∧
    parse_rate_value (.cstr "110% CDI".data) = some 110 ∧
    parse_rate_value (.cstr "13,45% a.a.".data) = some (13 + 45 / 100) ∧
    parse_rate_value_destques (.cstr "13,45% a.a.".data) = some (13 + 45 / 100) ∧
    parse_rate_value_destques (.cnum (27 / 2)) = some 135 := by
  refine ⟨fun q => rfl, rfl, ?_, by decide, by decide, by decide, by decide, by decide, by decide⟩
  intro s h
  simp [parse_rate_value, pyStrOfCell, h]

theorem parse_rate_value_characterization_witness :
    parse_rate_value (.cnum (7 / 5)) = some (7 / 5) ∧
    parse_rate_value (.cstr "abc".data) = none :=
  ⟨parse_rate_value_characterization.1 (7 / 5),
    parse_rate_value_characterization.2.2.1 "abc".data (by decide)⟩

/-- Claim C3 (counterexample): in `rf_destques.py` the Pós (CDI)
vocabulary is tested before IPCA, so the string "IPCA / CDI" -- whose
uppercased form contains "IPCA" -- classifies as Pós (CDI), not IPCA
(the other three variants return IPCA for the same input). -/
theorem classify_indexer_destques_counterexample :
    classify_indexer_destques (.cstr "IPCA / CDI".data) = some .posCDI ∧
    classify_indexer (.cstr "IPCA / CDI".data) = some .ipca ∧
    Indexer.posCDI ≠ Indexer.ipca := by
  refine ⟨by decide, by decide, by decide⟩

/-- Claim C3 (amended): in `rf_destaques.py` / `rf_destaques_2.py` /
`rf_destaques3.py`, `classify_indexer` checks IPCA first, so every string
whose uppercased form contains "IPCA" classifies as IPCA even when it also
contains "CDI"/"PÓS"/"PRÉ"/"FIXA", and a string matching none of the
vocabularies yields null; but in `rf_destques.py` the Pós (CDI) check
(including the bare token "DI") comes first, so a string containing "CDI"
always classifies as Pós (CDI) there, even when it contains "IPCA". -/
theorem classify_indexer_priority :
    (∀ s : Str, containsB (pyUpper s) "IPCA".data = true →
      classify_indexer (.cstr s) = some .ipca) ∧
    (∀ s : Str,
      containsB (pyUpper s) "IPCA".data = false →
      containsB (pyUpper s) "CDI".data = false →
      containsB (pyUpper s) "PÓS".data = false →
      containsB (pyUpper s) "POS".data = false →
      containsB (pyUpper s) "PRÉ".data = false →
      containsB (pyUpper s) "PRE".data = false →
      containsB (pyUpper s) "FIXA".data = false →
      classify_indexer (.cstr s) = none) ∧
    (∀ s : Str, containsB (pyUpper (pyStrip s)) "CDI".data = true →
      classify_indexer_destques (.cstr s) = some .posCDI) ∧
    classify_indexer (.cstr "110% do CDI".data) = some .posCDI ∧
    classify_indexer (.cstr "Prefixado 12%".data) = some .pre ∧
    classify_indexer (.cstr "xyz".data) = none ∧
    classify_indexer Cell.cnone = none := by
  refine ⟨?_, ?_, ?_, by decide, by decide, by decide, rfl⟩
  · intro s h
    simp [classify_indexer, pyStrOfCell, h]
  · intro s h1 h2 h3 h4 h5 h6 h7
    simp [classify_indexer, pyStrOfCell, h1, h2, h3, h4, h5, h6, h7]
  · intro s h
    simp [classify_indexer_destques, pyStrOfCell, h]

theorem classify_indexer_priority_witness :
    classify_indexer (.cstr "IPCA com piso PRÉ".data) = some .ipca ∧
    classify_indexer (.cstr "Selic".data) = none ∧
    classify_indexer_destques (.cstr "IPCA ou CDI".data) = some .posCDI := by
  refine ⟨classify_indexer_priority.1 "IPCA com piso PRÉ".data (by decide),
    classify_indexer_priority.2.1 "Selic".data (by decide) (by decide) (by decide) (by decide)
      (by decide) (by decide) (by decide),
    classify_indexer_priority.2.2.1 "IPCA ou CDI".data (by decide)⟩

/-- Claim C4 (counterexample): with headers ["Taxa Portal", "Taxa"] and the
single alias "Taxa", an exact (case-insensitive) match "Taxa" exists, yet
the `find_col` of `rf_destaques.py` returns "Taxa Portal" -- its single
pass accepts the earlier substring match, so exact does NOT win over
substring there (the two-pass `find_col` of `rf_destques.py` does return
the exact match). -/
theorem find_col_counterexample :
    find_col ["Taxa Portal".data, "Taxa".data] ["Taxa".data] = some "Taxa Portal".data ∧
    find_col_destques ["Taxa Portal".data, "Taxa".data] ["Taxa".data] = some "Taxa".data ∧
    "Taxa Portal".data ≠ "Taxa".data ∧
    pyLower "Taxa".data = pyLower "Taxa".data := by
  refine ⟨by decide, by decide, by decide, rfl⟩

theorem find_col_first_exact (cols rest : List Str) (cand c : Str)
    (h : cols.find? (fun col => pyLower cand == pyLower col) = some c) :
    find_col_destques cols (cand :: rest) = some c := by
  simp [find_col_destques, h]

theorem find_col_first_match (cols rest : List Str) (cand c : Str)
    (h : cols.find? (colMatch cand) = some c) :
    find_col cols (cand :: rest) = some c := by
  simp [find_col, h]

theorem find_col_skip_alias (cols rest : List Str) (cand : Str)
    (h : cols.find? (colMatch cand) = none) :
    find_col cols (cand :: rest) = find_col cols rest ∧
    find_col_destques cols (cand :: rest) = find_col_destques cols rest := by
  have hall := List.find?_eq_none.1 h
  have hex : cols.find? (fun col => pyLower cand == pyLower col) = none := by
    refine List.find?_eq_none.2 fun x hx => ?_
    have hx2 := hall x hx
    simp [colMatch] at hx2
    simp [hx2.1]
  have hsub : cols.find? (fun col => containsB (pyLower col) (pyLower cand)) = none := by
    refine List.find?_eq_none.2 fun x hx => ?_
    have hx2 := hall x hx
    simp [colMatch] at hx2
    simp [hx2.2]
  constructor
  · simp [find_col, h]
  · simp [find_col_destques, hex, hsub]

theorem find_col_lower_invariant (cols : List Str) :
    ∀ cands cands2 : List Str, cands.map pyLower = cands2.map pyLower →
      find_col cols cands = find_col cols cands2 ∧
      find_col_destques cols cands = find_col_destques cols cands2 := by
  intro cands
  induction cands with
  | nil =>
    intro cands2 h
    have : cands2 = [] := by
      cases cands2 with
      | nil => rfl
      | cons b bs => simp at h
    subst this
    exact ⟨rfl, rfl⟩
  | cons a as ih =>
    intro cands2 h
    cases cands2 with
    | nil => simp at h
    | cons b bs =>
      simp only [List.map_cons, List.cons.injEq] at h
      obtain ⟨hab, htl⟩ := h
      have hm : colMatch a = colMatch b := funext fun col => by simp [colMatch, hab]
      have hpe : (fun col => pyLower a == pyLower col) =
          (fun col => pyLower b == pyLower col) := funext fun col => by rw [hab]
      have hps : (fun col => containsB (pyLower col) (pyLower a)) =
          (fun col => containsB (pyLower col) (pyLower b)) := funext fun col => by rw [hab]
      have ihb := ih bs htl
      constructor
      · simp only [find_col, hm]
        cases cols.find? (colMatch b) with
        | none => simpa using ihb.1
        | some c => rfl
      · simp only [find_col_destques, hpe, hps]
        cases cols.find? (fun col => pyLower b == pyLower col) with
        | none =>
          cases cols.find? (fun col => containsB (pyLower col) (pyLower b)) with
          | none => simpa using ihb.2
          | some c => rfl
        | some c => rfl

/-- Claim C4 (amended): resolution is case-insensitive in all variants
(aliases differing only in case resolve identically), and an earlier alias
in the priority list wins over a later one (a candidate with no exact or
substring match at all is skipped in both variants, and the first
candidate with a match decides the result); but only `rf_destques.py`'s
two-pass `find_col` makes an exact case-insensitive match win over a
substring match -- in `rf_destaques.py` / `rf_destaques_2.py` /
`rf_destaques3.py` a single pass in header order returns the first column
matching exactly OR by substring, so an earlier substring match defeats a
later exact match. -/
theorem find_col_characterization :
    (∀ (cols rest : List Str) (cand c : Str),
      cols.find? (fun col => pyLower cand == pyLower col) = some c →
      find_col_destques cols (cand :: rest) = some c) ∧
    (∀ (cols rest : List Str) (cand c : Str),
      cols.find? (colMatch cand) = some c →
      find_col cols (cand :: rest) = some c) ∧
    (∀ (cols rest : List Str) (cand : Str),
      cols.find? (colMatch cand) = none →
      find_col cols (cand :: rest) = find_col cols rest ∧
      find_col_destques cols (cand :: rest) = find_col_destques cols rest) ∧
    (∀ (cols cands cands2 : List Str),
      cands.map pyLower = cands2.map pyLower →
      find_col cols cands = find_col cols cands2 ∧
      find_col_destques cols cands = find_col_destques cols cands2) :=
  ⟨find_col_first_exact, find_col_first_match, find_col_skip_alias,
    fun cols => find_col_lower_invariant cols⟩

theorem find_col_characterization_witness :
    find_col_destques ["Taxa Portal".data, "Taxa".data] ["Taxa".data, "Tx".data] =
      some "Taxa".data ∧
    find_col ["Tx. Portal".data] ["Tx".data, "Taxa".data] = some "Tx. Portal".data ∧
    find_col ["Emissor".data, "Produto".data] ["Rating".data, "Produto".data] =
      find_col ["Emissor".data, "Produto".data] ["Produto".data] ∧
    find_col ["Emissor".data, "Produto".data] ["PRODUTO".data] =
      find_col ["Emissor".data, "Produto".data] ["produto".data] := by
  refine ⟨find_col_characterization.1 _ _ _ _ (by decide),
    find_col_characterization.2.1 _ _ _ _ (by decide),
    (find_col_characterization.2.2.1 _ _ _ (by decide)).1,
    (find_col_characterization.2.2.2 _ _ _ (by decide)).1⟩

theorem apply_rating_filter_fst_sublist (u : Bool) (tk : Str) (l : List NormalizedRecord) :
    (apply_rating_filter u tk l).1.Sublist l := by
  unfold apply_rating_filter
  cases u with
  | false => simp
  | true =>
    cases h : rating_score (.cstr tk) with
    | none => simp [h]
    | some m =>
      simp only [h, if_true]
      exact List.filter_sublist l

theorem apply_min_app_filter_sublist (u : Bool) (cap : ℚ) (l : List NormalizedRecord) :
    (apply_min_app_filter u cap l).Sublist l := by
  unfold apply_min_app_filter
  split
  · exact List.filter_sublist l
  · exact List.Sublist.refl l

theorem pipelineRecords_sublist (hasPrazo : Bool) (today : Nat × Nat × Nat)
    (rows : List RawRow) (useRating : Bool) (ratingMin : Str) (useMinApp : Bool) (cap : ℚ) :
    (pipelineRecords hasPrazo today rows useRating ratingMin useMinApp cap).Sublist
      ((rows.map (normalizeRow hasPrazo today)).filter survivorPred) := by
  unfold pipelineRecords
  exact (apply_min_app_filter_sublist _ _ _).trans (apply_rating_filter_fst_sublist _ _ _)

/-- Claim C8: every record in the dataframe the pipeline hands to the
display, Top-N and message steps has non-null `indexador_pad`,
`horizonte` and `taxa_num`; a record whose survivor test fails is dropped
(it is never a member of the result), not errored (the pipeline is a total
function returning a sublist of the normalized rows). -/
theorem pipeline_survivor_invariant :
    ∀ (hasPrazo : Bool) (today : Nat × Nat × Nat) (rows : List RawRow)
      (useRating : Bool) (ratingMin : Str) (useMinApp : Bool) (cap : ℚ)
      (r : NormalizedRecord),
      (r ∈ pipelineRecords hasPrazo today rows useRating ratingMin useMinApp cap →
        r.indexador_pad.isSome = true ∧ r.horizonte.isSome = true ∧
          r.taxa_num.isSome = true) ∧
      (survivorPred r = false →
        r ∉ pipelineRecords hasPrazo today rows useRating ratingMin useMinApp cap) ∧
      (pipelineRecords hasPrazo today rows useRating ratingMin useMinApp cap).Sublist
        (rows.map (normalizeRow hasPrazo today)) := by
  intro hasPrazo today rows useRating ratingMin useMinApp cap r
  have hsub := pipelineRecords_sublist hasPrazo today rows useRating ratingMin useMinApp cap
  have hmem : r ∈ pipelineRecords hasPrazo today rows useRating ratingMin useMinApp cap →
      survivorPred r = true := fun hr => (List.mem_filter.1 (hsub.subset hr)).2
  refine ⟨fun hr => ?_, fun hf hr => ?_, hsub.trans (List.filter_sublist _)⟩
  · have h3 := hmem hr
    simp only [survivorPred, Bool.and_eq_true] at h3
    exact ⟨h3.1.1, h3.1.2, h3.2⟩
  · rw [hmem hr] at hf
    cases hf

/-- A concrete well-formed raw row used to witness the pipeline claims. -/
def rawRow0 : RawRow :=
  { emissor := .cstr "Banco A".data, produto := .cstr "CDB".data,
    indexador := .cstr "CDI".data, taxa := .cstr "110% CDI".data,
    prazo := .cnum 100, venc := .cdate 2026 5 1, aplic_min := .cnum 1000,
    rating := .cstr "A-".data }

def rec0 : NormalizedRecord := normalizeRow true (2026, 1, 1) rawRow0

theorem pipeline_survivor_invariant_witness :
    rec0.indexador_pad.isSome = true ∧ rec0.horizonte.isSome = true ∧
      rec0.taxa_num.isSome = true :=
  (pipeline_survivor_invariant true (2026, 1, 1) [rawRow0] false [] false 0 rec0).1 (by decide)

/-- Claim C9 (counterexample): the pipeline is not a pure function of the
uploaded bytes alone -- the WhatsApp message embeds `datetime.now()` in its
header (and, when no `Prazo` column resolves, `prazo_dias` is computed
against `date.today()`), so byte-identical input produces different
message strings on different days. -/
theorem pipeline_message_clock_counterexample :
    pipelineMessage true (2026, 10, 12) [] false [] false 0 5 ≠
      pipelineMessage true (2026, 10, 13) [] false [] false 0 5 := by decide

/-- Claim C9 (amended): the pipeline is a pure function of the pair (input,
current date): with a resolved `Prazo` column the normalized records and
every Top-N bucket are independent of the invocation date, and two runs
whose dates render identically (in particular: runs on the same day)
produce byte-identical message strings; only the `datetime.now()` header
stamp (and the maturity fallback when `Prazo` is missing) depends on the
clock. -/
theorem pipeline_pure_function_of_input_and_date :
    ∀ (rows : List RawRow) (t1 t2 : Nat × Nat × Nat) (useRating : Bool) (ratingMin : Str)
      (useMinApp : Bool) (cap : ℚ) (topn n : Nat) (idx : Indexer) (hz : Horizon),
      pipelineRecords true t1 rows useRating ratingMin useMinApp cap =
        pipelineRecords true t2 rows useRating ratingMin useMinApp cap ∧
      top_n_block (pipelineRecords true t1 rows useRating ratingMin useMinApp cap) idx hz n =
        top_n_block (pipelineRecords true t2 rows useRating ratingMin useMinApp cap) idx hz n ∧
      (format_date_br (some t1) = format_date_br (some t2) →
        pipelineMessage true t1 rows useRating ratingMin useMinApp cap topn =
          pipelineMessage true t2 rows useRating ratingMin useMinApp cap topn) := by
  intro rows t1 t2 useRating ratingMin useMinApp cap topn n idx hz
  have hrow : normalizeRow true t1 = normalizeRow true t2 := funext fun r => rfl
  have hrec : pipelineRecords true t1 rows useRating ratingMin useMinApp cap =
      pipelineRecords true t2 rows useRating ratingMin useMinApp cap := by
    unfold pipelineRecords
    rw [hrow]
  refine ⟨hrec, by rw [hrec], fun hd => ?_⟩
  unfold pipelineMessage build_whatsapp_message
  rw [hrec, hd]

theorem pipeline_pure_function_witness :
    pipelineMessage true (2026, 10, 12) [rawRow0] false [] false 0 5 =
      pipelineMessage true (2026, 10, 12) [rawRow0] false [] false 0 5 :=
  (pipeline_pure_function_of_input_and_date [rawRow0] (2026, 10, 12) (2026, 10, 12)
    false [] false 0 5 5 .posCDI .curto).2.2 rfl

theorem read_rows_aux_no_blank :
    ∀ (rows : List SheetRow) (s : Nat) (r : SheetRow),
      r ∈ read_rows_aux s rows → rowBlank r = false := by
  intro rows
  induction rows with
  | nil =>
    intro s r h
    simp [read_rows_aux] at h
  | cons a rs ih =>
    intro s r h
    by_cases hb : rowBlank a
    · by_cases h20 : 20 ≤ s + 1
      · simp [read_rows_aux, hb, h20] at h
      · simp only [read_rows_aux, hb, if_true, h20, if_false] at h
        exact ih (s + 1) r h
    · simp only [read_rows_aux, hb, if_false] at h
      rcases List.mem_cons.1 h with h1 | h1
      · subst h1
        simpa using hb
      · exact ih 0 r h1

theorem read_rows_aux_okRun :
    ∀ (rows : List SheetRow) (s : Nat), okRun s rows = true →
      read_rows_aux s rows = rows.filter (fun x => !rowBlank x) := by
  intro rows
  induction rows with
  | nil => intro s _; rfl
  | cons a rs ih =>
    intro s h
    by_cases hb : rowBlank a
    · have h1 : s + 1 < 20 ∧ okRun (s + 1) rs = true := by
        simpa [okRun, hb] using h
      have h20 : ¬20 ≤ s + 1 := by omega
      simp [read_rows_aux, hb, h20, List.filter_cons, ih (s + 1) h1.2]
    · have h1 : okRun 0 rs = true := by simpa [okRun, hb] using h
      simp [read_rows_aux, hb, List.filter_cons, ih 0 h1]

theorem read_rows_aux_blankrun :
    ∀ (bs : List SheetRow) (s : Nat) (rest : List SheetRow),
      (∀ b ∈ bs, rowBlank b = true) → 20 ≤ s + bs.length → s < 20 →
      read_rows_aux s (bs ++ rest) = [] := by
  intro bs
  induction bs with
  | nil =>
    intro s rest _ hlen hs
    exact absurd hlen (by simpa using hs)
  | cons b bs ih =>
    intro s rest hb hlen hs
    have hbb : rowBlank b = true := hb b (List.mem_cons_self b bs)
    by_cases h20 : 20 ≤ s + 1
    · simp [read_rows_aux, hbb, h20]
    · simp only [List.cons_append, read_rows_aux, hbb, if_true, h20, if_false]
      refine ih (s + 1) rest (fun x hx => hb x (List.mem_cons_of_mem b hx)) ?_ (by omega)
      simp only [List.length_cons] at hlen
      omega

theorem read_rows_aux_cut :
    ∀ (pre : List SheetRow) (s : Nat) (bs rest rest2 : List SheetRow),
      s < 20 → (∀ b ∈ bs, rowBlank b = true) → 20 ≤ bs.length →
      read_rows_aux s (pre ++ (bs ++ rest)) = read_rows_aux s (pre ++ (bs ++ rest2)) := by
  intro pre
  induction pre with
  | nil =>
    intro s bs rest rest2 hs hb hlen
    rw [List.nil_append, List.nil_append, read_rows_aux_blankrun bs s rest hb (by omega) hs,
      read_rows_aux_blankrun bs s rest2 hb (by omega) hs]
  | cons p pre ih =>
    intro s bs rest rest2 hs hb hlen
    by_cases hp : rowBlank p
    · by_cases h20 : 20 ≤ s + 1
      · simp [read_rows_aux, hp, h20]
      · simp only [List.cons_append, read_rows_aux, hp, if_true, h20, if_false]
        exact ih (s + 1) bs rest rest2 (by omega) hb hlen
    · simp only [List.cons_append, read_rows_aux]
      rw [if_neg hp, if_neg hp]
      exact congrArg (fun t => p :: t) (ih 0 bs rest rest2 (by omega) hb hlen)

/-- Claim C10: the sheet reader never emits an all-blank row (every row it
returns fails the blank test, i.e. has a cell that is non-None and
non-empty after stripping); when no run of 20 consecutive blank rows ever
forms, blank rows are silently skipped wherever they occur (the result is
exactly the non-blank rows, in order); and once 20 consecutive blank rows
are seen reading stops for good, so whatever follows that run is never
ingested (the result does not depend on it). -/
theorem read_rows_spec :
    ∀ (rows pre bs rest rest2 : List SheetRow) (r : SheetRow),
      (r ∈ read_rows rows → rowBlank r = false) ∧
      (okRun 0 rows = true → read_rows rows = rows.filter (fun x => !rowBlank x)) ∧
      ((∀ b ∈ bs, rowBlank b = true) → 20 ≤ bs.length →
        read_rows (pre ++ (bs ++ rest)) = read_rows (pre ++ (bs ++ rest2))) := by
  intro rows pre bs rest rest2 r
  exact ⟨read_rows_aux_no_blank rows 0 r, read_rows_aux_okRun rows 0,
    fun hb hlen => read_rows_aux_cut pre 0 bs rest rest2 (by omega) hb hlen⟩

def blankR : SheetRow := [Cell.cnone, Cell.cstr "  ".data]

def dataR : SheetRow := [Cell.cstr "Emissor X".data, Cell.cnone]

theorem read_rows_spec_witness :
    rowBlank dataR = false ∧
    read_rows [dataR, blankR, dataR] =
      [dataR, blankR, dataR].filter (fun x => !rowBlank x) ∧
    read_rows ([dataR] ++ (List.replicate 20 blankR ++ [dataR])) =
      read_rows ([dataR] ++ (List.replicate 20 blankR ++ [])) := by
  refine ⟨(read_rows_spec [dataR, blankR, dataR] [] [] [] [] dataR).1 (by decide),
    (read_rows_spec [dataR, blankR, dataR] [] [] [] [] dataR).2.1 (by decide),
    (read_rows_spec [] [dataR] (List.replicate 20 blankR) [dataR] [] dataR).2.2
      (by decide) (by decide)⟩

/-- A bucket of 17 records sharing one `rate_value`: 17 is the smallest
segment size at which numpy's introsort partitions instead of running its
(stable) insertion sort, and partitioning is what destroys tie order. -/
def mkTiedRec (i : Nat) : NormalizedRecord :=
  { emissor := Cell.cstr (natDigits i), produto := Cell.cnone, indexador_raw := Cell.cnone,
    indexador_pad := some Indexer.posCDI, prazo_dias := some 100,
    horizonte := some Horizon.curto, taxa_num := some 10, taxa_fmt := [],
    aplic_min_num := none, aplic_min_fmt := [], venc_dt := none, venc_fmt := [],
    rating := Cell.cnone }

def tied17 : List NormalizedRecord := (List.range 17).map mkTiedRec

/-- Claim C1: evidence that the code diverges from the claim's stability
requirement.  On a bucket of 17 records with equal `rate_value`,
`top_n_block` -- whose `sort_values` uses the pandas default (numpy
introsort) -- returns the tied records in the order
0, 9, 15, 14, 13, 12, 11, 10, 8, 1, 7, 6, 5, 4, 3, 2, 16 instead of the
original row order, while the spec's stable `topN` keeps the input order;
the bound, bucket-membership and descending-sort parts of the claim are
unaffected (all rates are equal here), but ties do not keep their original
order. -/
theorem top_n_block_unstable_on_ties :
    (top_n_block tied17 .posCDI .curto 17).map NormalizedRecord.emissor =
      [0, 9, 15, 14, 13, 12, 11, 10, 8, 1, 7, 6, 5, 4, 3, 2, 16].map
        (fun i => Cell.cstr (natDigits i)) ∧
    (topN_spec tied17 .posCDI .curto 17).map NormalizedRecord.emissor =
      tied17.map NormalizedRecord.emissor ∧
    top_n_block tied17 .posCDI .curto 17 ≠ topN_spec tied17 .posCDI .curto 17 := by
  refine ⟨by decide, by decide, by decide⟩
